import Mathlib

set_option maxHeartbeats 1000000

/-!
Shallow embedding of the rent-matching system's ledger reconciliation and
debt-allocation engine (`matcher_db.py`, `matcher.py`, `csv_ai_mapper.py`).

Monetary amounts (Python floats holding yen values) are modelled as
integers: the engine only ever adds, subtracts, takes `min`, and compares
these values, all of which are exact on whole-yen data (every amount in the
repository's data and in the spec's scenarios is a whole number of yen).

Dates (pandas `Timestamp`s, whose time-of-day component is never used by the
engine) are modelled as year/month/day triples of integers.
-/

deriving instance DecidableEq for Except

/-- A calendar date as carried by a pandas `Timestamp`; the engine never uses
the time-of-day component.  Fields are unconstrained integers; calendar
validity, where a proof needs it, is the separate predicate `validDate`. -/
structure CalDate where
  y : Int
  m : Int
  d : Int
deriving DecidableEq, Repr, Inhabited

/-- Calendar validity of a date (month in range and day in a month's range;
31 is a safe upper bound for the day since the engine never does day
arithmetic on tenant-supplied dates beyond month truncation). -/
def validDate (dt : CalDate) : Prop :=
  1 ≤ dt.m ∧ dt.m ≤ 12 ∧ 1 ≤ dt.d ∧ dt.d ≤ 31

instance (dt : CalDate) : Decidable (validDate dt) := by
  unfold validDate; infer_instance

/-- Timestamp comparison `a <= b`: lexicographic on (year, month, day). -/
def dateLeB (a b : CalDate) : Bool :=
  (a.y < b.y) || (a.y == b.y && (a.m < b.m || (a.m == b.m && a.d ≤ b.d)))

/-- Timestamp comparison `a < b`: lexicographic on (year, month, day). -/
def dateLtB (a b : CalDate) : Bool :=
  (a.y < b.y) || (a.y == b.y && (a.m < b.m || (a.m == b.m && a.d < b.d)))

/-- Linear month index of a date: `12*year + (month-1)`.  Adding or
subtracting `relativedelta(months=k)` to a month-start timestamp is exactly
`+ k` on this index. -/
def monthIdx (dt : CalDate) : Int := 12 * dt.y + (dt.m - 1)

/-- First day of the month with the given linear month index. -/
def firstOfMonth (i : Int) : CalDate := ⟨i.ediv 12, i.emod 12 + 1, 1⟩

/-- `normalize_month(ts)`: `Timestamp(year=ts.year, month=ts.month, day=1)`. -/
def normalizeMonthD (dt : CalDate) : CalDate := ⟨dt.y, dt.m, 1⟩

/-- Gregorian leap-year rule. -/
def isLeapYear (y : Int) : Bool :=
  (y % 4 == 0 && y % 100 != 0) || (y % 400 == 0)

/-- Number of days in month `m` of year `y`. -/
def daysInMonth (y m : Int) : Int :=
  if m == 2 then (if isLeapYear y then 29 else 28)
  else if m == 4 || m == 6 || m == 9 || m == 11 then 30 else 31

/-- Subtract `n` days (with `1 ≤ n ≤ 28`) from the first day of the month of
`dt`.  The result always lands in the preceding month.  This models
`Timestamp - Timedelta(days=15)` and `- relativedelta(days=1)`, which the
source only ever applies to month-start timestamps. -/
def subDaysFromMonthStart (dt : CalDate) (n : Int) : CalDate :=
  let p := firstOfMonth (monthIdx (normalizeMonthD dt) - 1)
  ⟨p.y, p.m, daysInMonth p.y p.m + 1 - n⟩

/-- Python's binary `min` on numbers. -/
def minQ (a b : Int) : Int := if a ≤ b then a else b

/-- Python `str.lower()` (ASCII case mapping; the engine's keyword and
sentinel comparisons only involve ASCII case). -/
def strLower (s : String) : String := ⟨s.data.map Char.toLower⟩

/-- Python `str.upper()` (ASCII case mapping). -/
def strUpper (s : String) : String := ⟨s.data.map Char.toUpper⟩

/-- Python `str.strip()` / pandas `.str.strip()`: drop surrounding
whitespace. -/
def strTrim (s : String) : String :=
  ⟨((s.data.dropWhile Char.isWhitespace).reverse.dropWhile Char.isWhitespace).reverse⟩

/-- Python `str.startswith(pre)`. -/
def strStartsWith (s pre : String) : Bool := pre.data.isPrefixOf s.data

/-- Python `str.replace(c, '')`: remove every occurrence of one character. -/
def strRemoveAll (s : String) (c : Char) : String :=
  ⟨s.data.filter (fun x => !(x == c))⟩

/-- One obligation (a "debt" entry): the dict
`{'month': ..., 'amount': ..., 'paid': ..., 'is_carry_over': ...}` built by
`calculate_debts`, with the optional `'is_manual_adjustment'` key modelled as
a Boolean that defaults to `false`. -/
structure Debt where
  month : CalDate
  amount : Int
  paid : Int
  isCarryOver : Bool
  isManualAdj : Bool
deriving DecidableEq, Repr, Inhabited

/-- One recorded allocation:
`{'Month': d['month'], 'Amount': alloc, 'IsFull': is_full}`. -/
structure Alloc where
  month : CalDate
  amount : Int
  isFull : Bool
deriving DecidableEq, Repr, Inhabited

/-- A ledger payment before allocation: its `Date` and `Amount` fields. -/
structure PaymentIn where
  date : CalDate
  amount : Int
deriving DecidableEq, Repr, Inhabited

/-- A ledger payment after allocation.  `accountedBefore` models the
"確認済(...)以前の入金" / "記録済み" description given to deposits on or
before the cutoff, which are skipped without touching any obligation. -/
structure PaymentOut where
  date : CalDate
  amount : Int
  allocations : List Alloc
  surplus : Int
  accountedBefore : Bool
deriving DecidableEq, Repr, Inhabited

/-- Result of one FIFO pass of a single amount over the obligations list. -/
structure WalkRes where
  remaining : Int
  debts : List Debt
  allocs : List Alloc
deriving DecidableEq, Repr, Inhabited

/-- The FIFO inner loop shared by `TenantRecordDB.allocate_payments` and
`TenantRecord.allocate_payments` (and, with its recorded allocations ignored,
by the virtual-surplus pre-fill loop):

    for d in self.debts:
        if d['paid'] < d['amount']:
            needed = d['amount'] - d['paid']
            alloc = min(needed, amount_to_alloc)
            if alloc > 0:
                d['paid'] += alloc
                amount_to_alloc -= alloc
                ... record {'Month', 'Amount', 'IsFull'} ...
        if amount_to_alloc <= 0:
            break

The final `remaining` is the loop's `amount_to_alloc` (recorded as the
deposit's `Surplus`). -/
def allocWalk (rem : Int) : List Debt → WalkRes
  | [] => ⟨rem, [], []⟩
  | d :: rest =>
    if d.paid < d.amount then
      let needed := d.amount - d.paid
      let alloc := minQ needed rem
      if 0 < alloc then
        let paid' := d.paid + alloc
        let d' : Debt := { d with paid := paid' }
        let a : Alloc := ⟨d.month, alloc, decide (d.amount ≤ paid')⟩
        let rem' := rem - alloc
        if rem' ≤ 0 then ⟨rem', d' :: rest, [a]⟩
        else
          let w := allocWalk rem' rest
          ⟨w.remaining, d' :: w.debts, a :: w.allocs⟩
      else
        if rem ≤ 0 then ⟨rem, d :: rest, []⟩
        else
          let w := allocWalk rem rest
          ⟨w.remaining, d :: w.debts, w.allocs⟩
    else
      if rem ≤ 0 then ⟨rem, d :: rest, []⟩
      else
        let w := allocWalk rem rest
        ⟨w.remaining, d :: w.debts, w.allocs⟩

/-- Insert a payment after every earlier payment dated on or before it. -/
def insertPayment (p : PaymentIn) : List PaymentIn → List PaymentIn
  | [] => [p]
  | q :: rest =>
    if dateLeB q.date p.date then q :: insertPayment p rest else p :: q :: rest

/-- `self.ledger_payments.sort(key=lambda x: x['Date'])`: Python's stable
sort by date, modelled as a stable insertion sort. -/
def sortPayments (l : List PaymentIn) : List PaymentIn :=
  l.foldl (fun acc p => insertPayment p acc) []

/-- The tenant fields of `TenantRecordDB` that the ledger engine reads.
`delinquency_memo` (`LatestPaymentMemo`) is carried even though the DB engine
never consults it (claim C10). -/
structure TenantDB where
  rent : Int
  baseDate : CalDate
  baseDebt : Int
  baseSurplus : Int
  manualAdjustment : Int
  isCleanStart : Bool
  lastConfirmedDate : Option CalDate
  separateMgmt : Bool
  delinquencyMemo : String
deriving DecidableEq, Repr, Inhabited

/-- `TenantRecordDB.calculate_debts(target_date)` ("基準日固定方式").  Both
branches of the source's `if self.base_date.day == 1` set
`start_month = normalize_month(self.base_date)` and
`carry_month = start_month - relativedelta(months=1)`, so the branch is
collapsed here. -/
def calculateDebtsDB (t : TenantDB) (target : CalDate) : List Debt :=
  let initialBalance : Int :=
    if t.isCleanStart then 0 - t.baseSurplus else t.baseDebt - t.baseSurplus
  let startM : Int := monthIdx (normalizeMonthD t.baseDate)
  let carryM : CalDate := firstOfMonth (startM - 1)
  let carry : List Debt :=
    if 0 < initialBalance then [⟨carryM, initialBalance, 0, true, false⟩] else []
  let adj : List Debt :=
    if 0 < t.manualAdjustment then [⟨carryM, t.manualAdjustment, 0, true, true⟩] else []
  let limitEnd : Int := monthIdx (normalizeMonthD target) + 1
  let monthly : List Debt :=
    (List.range (limitEnd + 1 - startM).toNat).map
      (fun (k : Nat) => ⟨firstOfMonth (startM + (k : Int)), t.rent, 0, false, false⟩)
  carry ++ adj ++ monthly

/-- The cutoff date of `TenantRecordDB.allocate_payments`:
`last_confirmed_date` if valid, else (clean start) the month start of the
base date minus 15 days, else the base date. -/
def cutoffDateDB (t : TenantDB) : CalDate :=
  match t.lastConfirmedDate with
  | some lcd => lcd
  | none =>
    if t.isCleanStart then subDaysFromMonthStart t.baseDate 15
    else t.baseDate

/-- The virtual pre-allocated surplus of `TenantRecordDB.allocate_payments`
step 1: positive clean-start surplus, or surplus beyond the base debt, plus
the absolute value of a negative manual adjustment. -/
def virtualSurplus (t : TenantDB) : Int :=
  (if t.isCleanStart then
    (if 0 < t.baseSurplus then t.baseSurplus else 0)
   else
    (if t.baseDebt < t.baseSurplus then t.baseSurplus - t.baseDebt else 0))
  + (if t.manualAdjustment < 0 then 0 - t.manualAdjustment else 0)

/-- Step 1 of `TenantRecordDB.allocate_payments`: allocate the virtual
surplus FIFO over the debts (same loop as `allocWalk`, recorded allocations
discarded), guarded by `virtual_surplus > 0`. -/
def applyVirtual (t : TenantDB) (debts : List Debt) : List Debt :=
  let vs := virtualSurplus t
  if 0 < vs then (allocWalk vs debts).debts else debts

/-- Step 2 of `TenantRecordDB.allocate_payments` for a single ledger
payment: skip it (allocations empty, debts untouched) when its date is on or
before the cutoff, else run the FIFO loop and record the leftover as its
surplus. -/
def processPayment (cutoff : CalDate) (debts : List Debt) (p : PaymentIn) :
    List Debt × PaymentOut :=
  if dateLeB p.date cutoff then
    (debts, ⟨p.date, p.amount, [], 0, true⟩)
  else
    let w := allocWalk p.amount debts
    (w.debts, ⟨p.date, p.amount, w.allocs, w.remaining, false⟩)

/-- Fold `processPayment` over the (sorted) ledger payments, threading the
obligations list and collecting the per-payment outcomes in order. -/
def processAllPayments (cutoff : CalDate) (debts : List Debt) :
    List PaymentIn → List Debt × List PaymentOut
  | [] => (debts, [])
  | p :: rest =>
    let s := processPayment cutoff debts p
    let r := processAllPayments cutoff s.1 rest
    (r.1, s.2 :: r.2)

/-- `TenantRecordDB.allocate_payments()`: sort payments chronologically,
pre-fill the virtual surplus, then allocate each payment. -/
def allocatePaymentsDB (t : TenantDB) (debts : List Debt)
    (payments : List PaymentIn) : List Debt × List PaymentOut :=
  let sorted := sortPayments payments
  processAllPayments (cutoffDateDB t) (applyVirtual t debts) sorted

/-- The per-tenant ledger pipeline run by `LogicEngine` (`process_status`,
`get_invoice_data`): `calculate_debts(today)` then `allocate_payments()`. -/
def runTenantDB (t : TenantDB) (payments : List PaymentIn) (today : CalDate) :
    List Debt × List PaymentOut :=
  allocatePaymentsDB t (calculateDebtsDB t today) payments

/-- `get_total_overdue(limit_date)` (identical in `TenantRecordDB` and
`TenantRecord`): sum of `amount - paid` over obligations whose month is on or
before `normalize_month(limit_date)`. -/
def getTotalOverdue (debts : List Debt) (limit : CalDate) : Int :=
  match debts with
  | [] => 0
  | d :: rest =>
    (if dateLeB d.month (normalizeMonthD limit) then d.amount - d.paid else 0)
      + getTotalOverdue rest limit

/-- The month at which `LogicEngine.process_status` (and the overdue-only
filter of `get_invoice_data`) evaluates delinquency: the current month,
moved one month earlier for clean-start tenants before the 20th. -/
def statusTargetMonth (t : TenantDB) (today : CalDate) : CalDate :=
  if t.isCleanStart && today.d < 20 then
    firstOfMonth (monthIdx (normalizeMonthD today) - 1)
  else normalizeMonthD today

/-- One row of the status table built by `LogicEngine.process_status`. -/
structure StatusEntry where
  rent : Int
  balanceDue : Int
  status : String
  lastAlloc : Option PaymentOut
deriving DecidableEq, Repr, Inhabited

/-- The per-tenant body of `LogicEngine.process_status`: `none` for
separately-managed tenants (skipped), otherwise run the ledger pipeline and
report balance due at the current month and the binary delinquency status at
the (possibly grace-shifted) target month. -/
def processStatusTenant (t : TenantDB) (payments : List PaymentIn)
    (today : CalDate) : Option StatusEntry :=
  if t.separateMgmt then none
  else
    let r := runTenantDB t payments today
    let totalDue := getTotalOverdue r.1 (normalizeMonthD today)
    let delinq := getTotalOverdue r.1 (statusTargetMonth t today)
    some ⟨t.rent, totalDue, if 0 < delinq then "滞納あり" else "正常", r.2.getLast?⟩

/-! Legacy engine (`matcher.py`, `TenantRecord`): memo-anchored fallback. -/

/-- Maximal run of ASCII digits at the front of a character list. -/
def takeDigitsRun : List Char → List Char × List Char
  | [] => ([], [])
  | c :: cs =>
    if c.isDigit then
      let r := takeDigitsRun cs
      (c :: r.1, r.2)
    else ([], c :: cs)

/-- Numeric value of a digit run. -/
def digitsVal (ds : List Char) : Nat :=
  ds.foldl (fun acc c => 10 * acc + (c.toNat - '0'.toNat)) 0

/-- Exactly `n` digits from the front (regex `\d{n}`), and the rest. -/
def takeExactDigits (n : Nat) (cs : List Char) : Option (List Char × List Char) :=
  match n, cs with
  | 0, cs => some ([], cs)
  | Nat.succ k, c :: cs =>
    if c.isDigit then
      match takeExactDigits k cs with
      | some (ds, r) => some (c :: ds, r)
      | none => none
    else none
  | Nat.succ _, [] => none

/-- A literal token (a fixed character sequence) at the front. -/
def pLit (lit : List Char) (cs : List Char) : Option (List Char) :=
  if lit.isPrefixOf cs then some (cs.drop lit.length) else none

/-- A date separator, slash or hyphen, at the front. -/
def pSep : List Char → Option (List Char)
  | c :: r => if c = '/' || c = '-' then some r else none
  | [] => none

/-- Regex `\d+` (greedy, at least one digit) at the front. -/
def pDigits1 (cs : List Char) : Option (Nat × List Char) :=
  let r := takeDigitsRun cs
  if r.1.isEmpty then none else some (digitsVal r.1, r.2)

/-- Regex `\d{1,2}` at the end of a pattern: greedy, two digits if present. -/
def pDay (cs : List Char) : Option (Nat × List Char) :=
  match takeExactDigits 2 cs with
  | some (ds, r) => some (digitsVal ds, r)
  | none =>
    match takeExactDigits 1 cs with
    | some (ds, r) => some (digitsVal ds, r)
    | none => none

/-- Regex: one-or-two digits, a separator, one-or-two digits, with greedy
backtracking on the first group, as in the memo date pattern. -/
def pMonthSepDay (cs : List Char) : Option (Nat × Nat × List Char) :=
  (do
    let (mds, r1) ← takeExactDigits 2 cs
    let r2 ← pSep r1
    let (dv, r3) ← pDay r2
    pure (digitsVal mds, dv, r3)) <|>
  (do
    let (mds, r1) ← takeExactDigits 1 cs
    let r2 ← pSep r1
    let (dv, r3) ← pDay r2
    pure (digitsVal mds, dv, r3))

/-- Match of the memo date pattern (four digits, separator, one-or-two digits,
separator, one-or-two digits) anchored at the front; returns the (year, month, day) groups and the rest. -/
def matchDateAt (cs : List Char) : Option ((Nat × Nat × Nat) × List Char) := do
  let (yds, r1) ← takeExactDigits 4 cs
  let r2 ← pSep r1
  let (mv, dv, r3) ← pMonthSepDay r2
  pure ((digitsVal yds, mv, dv), r3)

/-- Leftmost match of the memo date pattern (`re.search`); returns the
groups, the text before the match, the matched text, and the rest. -/
def searchDateFull : List Char →
    Option ((Nat × Nat × Nat) × List Char × List Char × List Char)
  | [] => none
  | c :: cs =>
    match matchDateAt (c :: cs) with
    | some (g, rest) =>
      some (g, [], (c :: cs).take ((c :: cs).length - rest.length), rest)
    | none =>
      match searchDateFull cs with
      | some (g, pre, m, rest) => some (g, c :: pre, m, rest)
      | none => none

/-- The text `TenantRecord.calculate_debts` parses mentions from:
`re.split` of the memo by the (captured) date pattern, keeping
`sections[0] + sections[1] + sections[2]` when at least one date occurs —
that is, everything up to (and excluding) the second date occurrence. -/
def parseTextOf (memo : List Char) : List Char :=
  match searchDateFull memo with
  | none => memo
  | some (_, pre, m, rest) =>
    match searchDateFull rest with
    | none => pre ++ m ++ rest
    | some (_, pre2, _, _) => pre ++ m ++ pre2

/-- Tail of the partial-payment pattern after the optional year:
`(\d{1,2})月分のうち(\d+)円`, with greedy backtracking on the month. -/
def pPartialTail (cs : List Char) : Option (Nat × Nat × List Char) :=
  (do
    let (mds, r1) ← takeExactDigits 2 cs
    let r2 ← pLit "月分のうち".data r1
    let (amt, r3) ← pDigits1 r2
    let r4 ← pLit "円".data r3
    pure (digitsVal mds, amt, r4)) <|>
  (do
    let (mds, r1) ← takeExactDigits 1 cs
    let r2 ← pLit "月分のうち".data r1
    let (amt, r3) ← pDigits1 r2
    let r4 ← pLit "円".data r3
    pure (digitsVal mds, amt, r4))

/-- Anchored match of `(?:(\d{4})年)?(\d{1,2})月分のうち(\d+)円`: the groups
(optional year, month, amount) and the rest after the match. -/
def matchPartialAt (cs : List Char) : Option ((Option Nat × Nat × Nat) × List Char) :=
  (do
    let (yds, r1) ← takeExactDigits 4 cs
    let r2 ← pLit "年".data r1
    let (m, amt, r3) ← pPartialTail r2
    pure ((some (digitsVal yds), m, amt), r3)) <|>
  ((pPartialTail cs).map (fun x => ((none, x.1, x.2.1), x.2.2)))

/-- Tail of the full-payment pattern after the optional year:
`(\d{1,2})月分(全額|全額充当)`; the left alternative `全額` always wins, so
only `月分全額` need be consumed. -/
def pFullTail (cs : List Char) : Option (Nat × List Char) :=
  (do
    let (mds, r1) ← takeExactDigits 2 cs
    let r2 ← pLit "月分全額".data r1
    pure (digitsVal mds, r2)) <|>
  (do
    let (mds, r1) ← takeExactDigits 1 cs
    let r2 ← pLit "月分全額".data r1
    pure (digitsVal mds, r2))

/-- Anchored match of `(?:(\d{4})年)?(\d{1,2})月分(全額|全額充当)`. -/
def matchFullAt (cs : List Char) : Option ((Option Nat × Nat) × List Char) :=
  (do
    let (yds, r1) ← takeExactDigits 4 cs
    let r2 ← pLit "年".data r1
    let (m, r3) ← pFullTail r2
    pure ((some (digitsVal yds), m), r3)) <|>
  ((pFullTail cs).map (fun x => ((none, x.1), x.2)))

/-- Fuelled `re.findall` scan: non-overlapping leftmost matches, continuing
after each match's end.  Every match consumes at least one character, so fuel
equal to the input length never runs out. -/
def scanPartialAux : Nat → List Char → List (Option Nat × Nat × Nat)
  | 0, _ => []
  | _, [] => []
  | Nat.succ f, c :: cs =>
    match matchPartialAt (c :: cs) with
    | some (g, rest) => g :: scanPartialAux f rest
    | none => scanPartialAux f cs

/-- All partial-payment mentions in a memo text, in order. -/
def scanPartial (cs : List Char) : List (Option Nat × Nat × Nat) :=
  scanPartialAux cs.length cs

/-- Fuelled `re.findall` scan for full-payment mentions. -/
def scanFullAux : Nat → List Char → List (Option Nat × Nat)
  | 0, _ => []
  | _, [] => []
  | Nat.succ f, c :: cs =>
    match matchFullAt (c :: cs) with
    | some (g, rest) => g :: scanFullAux f rest
    | none => scanFullAux f cs

/-- All full-payment mentions in a memo text, in order. -/
def scanFull (cs : List Char) : List (Option Nat × Nat) :=
  scanFullAux cs.length cs

/-- The inner `parse_year_month` of `TenantRecord.calculate_debts`: a bare
month is placed in the evaluation year, or the previous year when the month
number exceeds the evaluation month plus two. -/
def parseYearMonth (target : CalDate) (yOpt : Option Nat) (m : Nat) : CalDate :=
  match yOpt with
  | some y => ⟨(y : Int), (m : Int), 1⟩
  | none =>
    if (m : Int) > target.m + 2 then ⟨target.y - 1, (m : Int), 1⟩
    else ⟨target.y, (m : Int), 1⟩

/-- Python's `if t not in d: d[t] = v` on the memo paid map. -/
def mapInsertIfAbsent (mp : List (CalDate × Int)) (k : CalDate) (v : Int) :
    List (CalDate × Int) :=
  if (mp.lookup k).isSome then mp else mp ++ [(k, v)]

/-- The tenant fields of the legacy `TenantRecord` that `calculate_debts` and
`allocate_payments` read. -/
structure TenantLegacy where
  rent : Int
  initialDate : CalDate
  delinquencyMemo : String
  baseDebtAmount : Int
  baseDebtDate : Option CalDate
deriving DecidableEq, Repr, Inhabited

/-- The state `TenantRecord.calculate_debts` leaves for allocation: the
debts, the memo anchor date, and the memo paid map. -/
structure LegacyCalc where
  debts : List Debt
  memoAnchorDate : Option CalDate
  memoPaidMap : List (CalDate × Int)
deriving DecidableEq, Repr, Inhabited

/-- `TenantRecord.calculate_debts(target_date)`: the data-driven phase when a
`BaseDebtDate` exists, else the memo-anchored fallback.  Month-start
timestamps are compared through their linear month index. -/
def calculateDebtsLegacy (t : TenantLegacy) (target : CalDate) : LegacyCalc :=
  let targetN := normalizeMonthD target
  match t.baseDebtDate with
  | some bd =>
    let carry : List Debt :=
      if 0 < t.baseDebtAmount then [⟨bd, t.baseDebtAmount, 0, true, false⟩] else []
    let currStart := monthIdx (normalizeMonthD bd) + 1
    let limitEnd := monthIdx targetN + 1
    let monthly : List Debt :=
      (List.range (limitEnd + 1 - currStart).toNat).map
        (fun (k : Nat) => ⟨firstOfMonth (currStart + (k : Int)), t.rent, 0, false, false⟩)
    ⟨carry ++ monthly, some bd, []⟩
  | none =>
    let limitStart := monthIdx targetN - 8
    let calcStart := max (monthIdx (normalizeMonthD t.initialDate)) limitStart
    let memo := t.delinquencyMemo
    let isOk := strStartsWith (strLower (strTrim memo)) "ok"
    if isOk || memo == "" then
      let anchor := firstOfMonth (monthIdx targetN + 1)
      let limitEnd := monthIdx targetN + 1
      let debts : List Debt :=
        (List.range (limitEnd + 1 - calcStart).toNat).map (fun (k : Nat) =>
          let mo := firstOfMonth (calcStart + (k : Int))
          ⟨mo, t.rent, (if dateLeB mo anchor then t.rent else 0), false, false⟩)
      ⟨debts, some anchor, []⟩
    else
      let parseText := parseTextOf memo.data
      let st1 := (scanFull parseText).foldl (fun st g =>
        let tm := parseYearMonth target g.1 g.2
        (mapInsertIfAbsent st.1 tm t.rent, if dateLtB tm st.2 then tm else st.2))
        (([] : List (CalDate × Int)), targetN)
      let st2 := (scanPartial parseText).foldl (fun st g =>
        let tm := parseYearMonth target g.1 g.2.1
        (mapInsertIfAbsent st.1 tm ((g.2.2 : Int)), if dateLtB tm st.2 then tm else st.2))
        st1
      let paidMap := st2.1
      let firstMention := st2.2
      let anchor : CalDate :=
        match searchDateFull parseText with
        | some (g, _, _, _) => ⟨(g.1 : Int), (g.2.1 : Int), (g.2.2 : Int)⟩
        | none =>
          subDaysFromMonthStart
            (if dateLtB firstMention targetN then firstMention else targetN) 1
      let checkpoint := firstMention
      let currStart := min calcStart (monthIdx checkpoint)
      let limitEnd := monthIdx targetN + 1
      let debts : List Debt :=
        (List.range (limitEnd + 1 - currStart).toNat).map (fun (k : Nat) =>
          let mo := firstOfMonth (currStart + (k : Int))
          let p0 : Int := if dateLtB mo checkpoint then t.rent else 0
          let p1 : Int := match paidMap.lookup mo with | some v => v | none => p0
          ⟨mo, t.rent, p1, false, false⟩)
      ⟨debts, some anchor, paidMap⟩

/-- One payment step of `TenantRecord.allocate_payments`: the cutoff skip
(inclusive) or memo-anchor skip (exclusive), the anchor payment's allocations
taken verbatim from the memo paid map, else the standard FIFO loop. -/
def processLegacyPayment (t : TenantLegacy) (lc : LegacyCalc)
    (anchorIdx : Option Nat) (debts : List Debt) (idx : Nat) (p : PaymentIn) :
    List Debt × PaymentOut :=
  if (match t.baseDebtDate with
      | some c => dateLeB p.date c
      | none => false) then
    (debts, ⟨p.date, p.amount, [], 0, true⟩)
  else if (t.baseDebtDate.isNone &&
      (match lc.memoAnchorDate with
       | some ad => dateLtB p.date ad
       | none => false)) then
    (debts, ⟨p.date, p.amount, [], 0, true⟩)
  else if anchorIdx == some idx then
    (debts,
     ⟨p.date, p.amount,
      lc.memoPaidMap.map (fun x => ⟨x.1, x.2, decide (t.rent ≤ x.2)⟩), 0, false⟩)
  else
    let w := allocWalk p.amount debts
    (w.debts, ⟨p.date, p.amount, w.allocs, w.remaining, false⟩)

/-- Fold `processLegacyPayment` over the sorted payments with their index
(the anchor payment is identified by position, mirroring the source's
identity test `p == anchor_payment` against the first date-matching entry). -/
def processLegacyAll (t : TenantLegacy) (lc : LegacyCalc)
    (anchorIdx : Option Nat) (debts : List Debt) (idx : Nat) :
    List PaymentIn → List Debt × List PaymentOut
  | [] => (debts, [])
  | p :: rest =>
    let s := processLegacyPayment t lc anchorIdx debts idx p
    let r := processLegacyAll t lc anchorIdx s.1 (idx + 1) rest
    (r.1, s.2 :: r.2)

/-- `TenantRecord.allocate_payments()`. -/
def allocatePaymentsLegacy (t : TenantLegacy) (lc : LegacyCalc)
    (payments : List PaymentIn) : List Debt × List PaymentOut :=
  let sorted := sortPayments payments
  let anchorIdx : Option Nat :=
    match t.baseDebtDate, lc.memoAnchorDate with
    | none, some ad => sorted.findIdx? (fun p => p.date == ad)
    | _, _ => none
  processLegacyAll t lc anchorIdx lc.debts 0 sorted

/-- The legacy per-tenant pipeline of `run_matching`: `calculate_debts` then
`allocate_payments`, returning the obligations list. -/
def legacyPipelineDebts (t : TenantLegacy) (target : CalDate)
    (payments : List PaymentIn) : List Debt :=
  (allocatePaymentsLegacy t (calculateDebtsLegacy t target) payments).1

/-! Shared string parsers (models of `int(...)`, `pd.to_numeric`,
`pd.to_datetime` restricted to the formats the pipeline feeds them). -/

/-- Substring test (Python's `in` on strings) over character lists. -/
def listContainsSub (hay needle : List Char) : Bool :=
  match hay with
  | [] => needle.isEmpty
  | _ :: t => needle.isPrefixOf hay || listContainsSub t needle

/-- Substring test (Python's `needle in hay`). -/
def strContains (hay needle : String) : Bool :=
  listContainsSub hay.data needle.data

/-- Python's `int(s)` on a string: optional sign and decimal digits, with
surrounding whitespace allowed; anything else (including `"2026.0"`) fails. -/
def parseIntStrict (s : String) : Option Int :=
  let cs := (strTrim s).data
  let signed : Bool × List Char :=
    match cs with
    | '-' :: r => (true, r)
    | '+' :: r => (false, r)
    | _ => (false, cs)
  let r := takeDigitsRun signed.2
  if r.1.isEmpty || !r.2.isEmpty then none
  else some (if signed.1 then -((digitsVal r.1 : Int)) else (digitsVal r.1 : Int))

/-- Model of `pd.to_numeric` on a single cell: optional sign, integer part,
optional fractional part.  Scientific notation and other pandas-accepted
exotica are out of scope; they never occur in the claims' inputs. -/
def parseNumQ (s : String) : Option ℚ :=
  let cs := (strTrim s).data
  let signed : Bool × List Char :=
    match cs with
    | '-' :: r => (true, r)
    | '+' :: r => (false, r)
    | _ => (false, cs)
  let ip := takeDigitsRun signed.2
  let build : ℚ → Option ℚ := fun v => some (if signed.1 then -v else v)
  match ip.2 with
  | [] => if ip.1.isEmpty then none else build (digitsVal ip.1 : ℚ)
  | '.' :: r2 =>
    let fp := takeDigitsRun r2
    if !fp.2.isEmpty || (ip.1.isEmpty && fp.1.isEmpty) then none
    else build ((digitsVal ip.1 : ℚ) + (digitsVal fp.1 : ℚ) / ((10 : ℚ) ^ fp.1.length))
  | _ => none

/-- A calendar-checked date (what `pd.to_datetime(..., format="%Y-%m-%d")`
accepts): positive year, month 1–12, day within the month. -/
def mkValidDate (y m d : Int) : Option CalDate :=
  if 1 ≤ y && 1 ≤ m && m ≤ 12 && 1 ≤ d && d ≤ daysInMonth y m then
    some ⟨y, m, d⟩
  else none

/-- Model of `pd.to_datetime` on a free-form cell, restricted to
`YYYY-MM-DD` / `YYYY/MM/DD` shapes (the formats the bank exports and the
tenant sheet use); anything else is a parse failure (NaT / raise). -/
def parseDateStr (s : String) : Option CalDate :=
  match matchDateAt (strTrim s).data with
  | some (g, []) => mkValidDate (g.1 : Int) (g.2.1 : Int) (g.2.2 : Int)
  | _ => none

/-- Python's `str.replace(',', '')` (thousands-separator stripping). -/
def stripCommas (s : String) : String := strRemoveAll s ','

/-! Column-mapping detector and CSV normalizer (`csv_ai_mapper.py`). -/

/-- A raw CSV row: column name to cell value (cells modelled as strings). -/
structure BRow where
  cells : List (String × String)
deriving DecidableEq, Repr, Inhabited

/-- `row.get(col, dflt)`. -/
def rowGet (r : BRow) (c : String) (dflt : String) : String :=
  match r.cells.lookup c with
  | some v => v
  | none => dflt

/-- `row.get(col, dflt)` where the column name itself may be absent. -/
def rowGetOpt (r : BRow) (c : Option String) (dflt : String) : String :=
  match c with
  | some cn => rowGet r cn dflt
  | none => dflt

/-- A raw bank CSV: its header columns (in order) and its rows. -/
structure Table where
  cols : List String
  rows : List BRow
deriving DecidableEq, Repr, Inhabited

def DATE_KEYWORDS : List String :=
  ["日付", "年月日", "取引日", "振込日", "入金日", "処理日", "受付日", "date"]

def DATE_COMPONENT_YEAR : List String := ["年", "year"]

def DATE_COMPONENT_MONTH : List String := ["月", "month"]

def DATE_COMPONENT_DAY : List String := ["日", "day"]

def AMOUNT_KEYWORDS : List String :=
  ["金額", "入金額", "振込金額", "取引金額", "お支払金額", "amount"]

def AMOUNT_EXCLUDE : List String := ["残高", "手数料", "税"]

def SENDER_KEYWORDS : List String :=
  ["摘要", "振込人", "振込依頼人", "依頼人名", "内容", "コメント",
   "取引内容", "備考", "メモ", "sender", "summary", "description"]

def DEPOSIT_KEYWORDS : List String := ["入出金区分", "取引区分", "入出金"]

def DEPOSIT_KEYWORDS_EXCLUDE : List String := ["レコード区分"]

def DEPOSIT_VALUES : List String := ["入金", "振込入金", "入"]

/-- `_find_col`: first column whose lowered name is not keyword-excluded and
matches (equals, or contains, depending on `exact`) some keyword.  `pairs`
zips the original names with their lowered forms. -/
def findColAux (pairs : List (String × String)) (keywords exclude : List String)
    (exact : Bool) : Option String :=
  match pairs with
  | [] => none
  | (orig, cl) :: rest =>
    if exclude.any (fun ex => strContains cl (strLower ex)) then
      findColAux rest keywords exclude exact
    else if keywords.any (fun kw =>
        if exact then cl == strLower kw else strContains cl (strLower kw)) then
      some orig
    else findColAux rest keywords exclude exact

/-- The inner `_find_component` of `suggest_mapping`: first column (not in
`excludeCols`, compared by original name) whose lowered name contains a
keyword and, when given, the `mustContain` substring. -/
def findComponentAux (pairs : List (String × String)) (keywords : List String)
    (mustContain : Option String) (excludeCols : List String) : Option String :=
  match pairs with
  | [] => none
  | (orig, cl) :: rest =>
    if excludeCols.contains orig then
      findComponentAux rest keywords mustContain excludeCols
    else if keywords.any (fun kw =>
        strContains cl kw &&
        (match mustContain with
         | some mc => strContains cl mc
         | none => true)) then
      some orig
    else findComponentAux rest keywords mustContain excludeCols

/-- `_detect_date_column`: first column at least 3 of whose first 10 values
match the date pattern at the start (`re.match`). -/
def detectDateColumn (tb : Table) : Option String :=
  tb.cols.find? (fun c =>
    3 ≤ ((tb.rows.take 10).filter
      (fun r => (matchDateAt (rowGet r c "").data).isSome)).length)

/-- `_detect_numeric_column`: first non-excluded column at least 3 of whose
first 10 values parse as numbers after comma stripping. -/
def detectNumericColumn (tb : Table) (excludeKeywords : List String) : Option String :=
  tb.cols.find? (fun c =>
    !(excludeKeywords.any (fun ex => strContains (strLower c) (strLower ex))) &&
    3 ≤ ((tb.rows.take 10).filter
      (fun r => (parseNumQ (stripCommas (rowGet r c ""))).isSome)).length)

/-- The mapping produced by `HeuristicMapper.suggest_mapping` (and consumed
by `normalize_bank_data`). -/
structure CMapping where
  date : Option String
  dateParts : Option (String × String × String)
  amount : Option String
  sender : Option String
  depositFilter : Option String
  confidence : ℚ
deriving DecidableEq, Repr, Inhabited

/-- `HeuristicMapper.suggest_mapping(df)`.  The emergency positional
fallback's provisional `confidence = 0.9` is overwritten by the final
`score / max_score` assignment in the source, so only the latter appears. -/
def suggestMappingH (tb : Table) : CMapping :=
  let cols := tb.cols
  let pairs := cols.zip (cols.map (fun c => strTrim (strLower c)))
  let yearS := findColAux pairs DATE_COMPONENT_YEAR [] true
  let monthS := findColAux pairs DATE_COMPONENT_MONTH [] true
  let dayS := findColAux pairs DATE_COMPONENT_DAY [] true
  let comp : Option String × Option String × Option String :=
    if yearS.isSome && monthS.isSome && dayS.isSome then (yearS, monthS, dayS)
    else
      let y := findComponentAux pairs ["年", "year"] (some "日付") [] <|>
               findComponentAux pairs ["年", "year"] (some "date") []
      let exM := match y with | some c => [c] | none => []
      let m := findComponentAux pairs ["月", "month"] (some "日付") exM <|>
               findComponentAux pairs ["月", "month"] (some "date") exM
      let exD := (match y with | some c => [c] | none => []) ++
                 (match m with | some c => [c] | none => [])
      let d := findComponentAux pairs ["日", "day"] (some "日付") exD <|>
               findComponentAux pairs ["日", "day"] (some "date") exD
      (y, m, d)
  let dateOut : Option String × Option (String × String × String) × Nat :=
    match comp with
    | (some yc, some mc, some dc) => (none, some (yc, mc, dc), 1)
    | _ =>
      match findColAux pairs DATE_KEYWORDS [] false <|> detectDateColumn tb with
      | some dc => (some dc, none, 1)
      | none => (none, none, 0)
  let amountC := findColAux pairs AMOUNT_KEYWORDS AMOUNT_EXCLUDE false <|>
                 detectNumericColumn tb AMOUNT_EXCLUDE
  let senderC := findColAux pairs SENDER_KEYWORDS [] false
  let depC : Option String :=
    match findColAux pairs DEPOSIT_KEYWORDS DEPOSIT_KEYWORDS_EXCLUDE false with
    | some dc =>
      if tb.rows.any (fun r => DEPOSIT_VALUES.contains (strTrim (rowGet r dc "")))
      then some dc else none
    | none => none
  let withFallback : Option String × Option (String × String × String) :=
    if dateOut.1.isNone && dateOut.2.1.isNone && 17 ≤ cols.length then
      (none, some (cols.getD 14 "", cols.getD 15 "", cols.getD 16 ""))
    else (dateOut.1, dateOut.2.1)
  let score : Nat :=
    dateOut.2.2 + (if amountC.isSome then 1 else 0) + (if senderC.isSome then 1 else 0)
  ⟨withFallback.1, withFallback.2, amountC, senderC, depC, (score : ℚ) / 3⟩

/-- One canonical deposit row produced by `normalize_bank_data`: exactly the
three output columns `Date`, `Amount`, `Summary`, with the first two still
optional-valued before the final `dropna` filter. -/
structure CanonRow where
  date : Option CalDate
  amount : Option ℚ
  summary : String
deriving DecidableEq, Repr, Inhabited

/-- `_safe_int_str` composed with the date assembly of the forced positional
path: `pd.to_numeric(errors='coerce').fillna(0).astype(int)` (truncation
toward zero). -/
def safeIntCoerce (s : String) : Int :=
  match parseNumQ s with
  | some q => q.num.tdiv (q.den : Int)
  | none => 0

/-- Steps 1–2 of `normalize_bank_data`: drop declared total/summary rows,
then keep deposit rows (by the deposit-filter column when mapped, else by
the description starting with the bank-transfer marker). -/
def filteredRows (tb : Table) (mp : CMapping) : List BRow :=
  let rows1 :=
    match tb.cols.find? (fun c => strContains c "レコード区分") with
    | some col => tb.rows.filter (fun r => !(strTrim (rowGet r col "") == "合計"))
    | none => tb.rows
  match mp.depositFilter with
  | some dc =>
    if tb.cols.contains dc then
      rows1.filter (fun r => DEPOSIT_VALUES.contains (strTrim (rowGet r dc "")))
    else rows1
  | none =>
    match mp.sender with
    | some sc =>
      if tb.cols.contains sc then
        rows1.filter (fun r => strStartsWith (strTrim (rowGet r sc "")) "振込")
      else rows1
    | none => rows1

/-- The `Date` column construction of `normalize_bank_data`: the forced
positional path for 17-plus-column tables, else the mapping's split or
single date column, else the descriptive `ValueError`. -/
def buildDates (tb : Table) (mp : CMapping) (rows2 : List BRow) :
    Except String (List (Option CalDate)) :=
  if 17 ≤ tb.cols.length then
    let cy := tb.cols.getD 14 ""
    let cm := tb.cols.getD 15 ""
    let cd := tb.cols.getD 16 ""
    pure (rows2.map (fun r =>
      mkValidDate (safeIntCoerce (rowGet r cy ""))
        (safeIntCoerce (rowGet r cm "")) (safeIntCoerce (rowGet r cd ""))))
  else
    match mp.dateParts with
    | some (cy, cm, cd) =>
      if tb.cols.contains cy && tb.cols.contains cm && tb.cols.contains cd then
        match rows2.mapM (fun r => do
          let yv ← parseIntStrict (rowGet r cy "")
          let mv ← parseIntStrict (rowGet r cm "")
          let dv ← parseIntStrict (rowGet r cd "")
          pure (mkValidDate yv mv dv)) with
        | some l => pure l
        | none => Except.error "invalid literal for int()"
      else Except.error "KeyError"
    | none =>
      match mp.date with
      | some dc =>
        if tb.cols.contains dc then
          pure (rows2.map (fun r => parseDateStr (rowGet r dc "")))
        else Except.error "KeyError"
      | none => Except.error "日付列が特定できません。手動でマッピングしてください。"

/-- The `Amount` column construction of `normalize_bank_data`: comma
stripping plus numeric coercion, else the descriptive `ValueError`. -/
def buildAmounts (tb : Table) (mp : CMapping) (rows2 : List BRow) :
    Except String (List (Option ℚ)) :=
  match mp.amount with
  | some ac =>
    if tb.cols.contains ac then
      pure (rows2.map (fun r => parseNumQ (stripCommas (rowGet r ac ""))))
    else Except.error "KeyError"
  | none => Except.error "金額列が特定できません。手動でマッピングしてください。"

/-- The final row filter of `normalize_bank_data`:
`dropna(subset=['Date','Amount'])` plus `Amount > 0`. -/
def keptRow (cr : CanonRow) : Bool :=
  cr.date.isSome &&
  (match cr.amount with
   | some q => decide (0 < q)
   | none => false)

/-- `HeuristicMapper.normalize_bank_data(df, mapping)`.  Errors model the
raised exceptions: the two descriptive `ValueError`s for undeterminable
date/amount, `KeyError` for a mapping naming an absent column, and the
`astype(int)` failure on non-integer date-part cells. -/
def normalizeBankData (tb : Table) (mp : CMapping) : Except String (List CanonRow) := do
  let rows2 := filteredRows tb mp
  let dates ← buildDates tb mp rows2
  let amounts ← buildAmounts tb mp rows2
  let summaries : List String :=
    rows2.map (fun r =>
      match mp.sender with
      | some sc => strTrim (rowGet r sc "")
      | none => "")
  let combined := (dates.zip (amounts.zip summaries)).map
    (fun x => (⟨x.1, x.2.1, x.2.2⟩ : CanonRow))
  pure (combined.filter keptRow)

/-! Reconciliation engine (`LogicEngine.match_new_bank_data` and
`_generate_flexible_tx_key`). -/

/-- `normalize_name`: strip spaces (half- and full-width), strip one leading
bank-transfer marker per pass over the fixed marker list, upper-case. -/
def normalizeNameStr (s : String) : String :=
  if strLower s == "nan" then ""
  else
    let s1 := strRemoveAll (strRemoveAll s ' ') '　'
    let s2 := ["振込　", "振込", "ﾂｲｶ", "ｻｲｿｳ"].foldl
      (fun acc p =>
        if p.data.isPrefixOf acc.data then (⟨acc.data.drop p.data.length⟩ : String)
        else acc) s1
    strUpper s2

/-- A tenant row as read by the matcher: its property id and the raw
`BankMatchName1..3` values. -/
structure TenantM where
  propertyId : String
  bankNames : List String
deriving DecidableEq, Repr, Inhabited

/-- The `'date'` entry of a matcher mapping: absent, a single column name,
or a list of column names. -/
inductive MDateVal where
  | noneV : MDateVal
  | str : String → MDateVal
  | list : List String → MDateVal
deriving DecidableEq, Repr

/-- The mapping consumed by `match_new_bank_data`. -/
structure MMapping where
  sender : Option String
  amount : Option String
  typeCol : Option String
  dateParts : Option (String × String × String)
  dateVal : MDateVal
deriving DecidableEq, Repr

/-- `_generate_flexible_tx_key`: the md5 input string (md5 itself modelled
as the injective identity on its input), concatenating the date component
values, the raw sender value, and the raw amount value. -/
def flexKey (row : BRow) (mp : MMapping) : String :=
  let sender := rowGetOpt row mp.sender ""
  let amount := rowGetOpt row mp.amount "0"
  let dateStr :=
    match mp.dateParts with
    | some (cy, cm, cd) => rowGet row cy "" ++ rowGet row cm "" ++ rowGet row cd ""
    | none =>
      match mp.dateVal with
      | .str c => rowGet row c ""
      | .list cs => String.join (cs.map (fun c => rowGet row c ""))
      | .noneV => ""
  dateStr ++ sender ++ amount

/-- The transaction-type filter of `match_new_bank_data`: a row is dropped
when its type value mentions neither 入金 nor 振込 but does mention 払 or 出. -/
def typeRejects (row : BRow) (mp : MMapping) : Bool :=
  match mp.typeCol with
  | some tc =>
    let tv := rowGet row tc ""
    if !(strContains tv "入金") && !(strContains tv "振込") then
      strContains tv "払" || strContains tv "出"
    else false
  | none => false

/-- Payment-date extraction of `match_new_bank_data`; `none` models the
caught exception that makes the row be skipped ("STRICT ERROR. NO DEFAULT
TO TODAY"). -/
def extractEntryDate (row : BRow) (mp : MMapping) : Option CalDate :=
  match mp.dateParts with
  | some (cy, cm, cd) => do
    let yv ← parseIntStrict (rowGet row cy "")
    let mv ← parseIntStrict (rowGet row cm "")
    let dv ← parseIntStrict (rowGet row cd "")
    pure (⟨yv, mv, dv⟩ : CalDate)
  | none =>
    match mp.dateVal with
    | .list cs =>
      match cs.head? with
      | some c => parseDateStr (rowGet row c "")
      | none => none
    | .str c => parseDateStr (rowGet row c "")
    | .noneV => none

/-- First tenant (in sheet order) one of whose normalized bank-match names
is a non-empty substring of the normalized deposit description. -/
def findTenantMatch (tenants : List TenantM) (summary : String) : Option String :=
  match tenants with
  | [] => none
  | t :: rest =>
    if (t.bankNames.map normalizeNameStr).any
        (fun c => !(c == "") && strContains summary c) then
      some t.propertyId
    else findTenantMatch rest summary

/-- A new ledger entry produced by `match_new_bank_data` (its `'Date'` is
stored as the `%Y-%m-%d` rendering of this date; `'Amount'` is the raw cell
value). -/
structure LedgerEntry where
  propertyId : String
  date : CalDate
  amount : String
  summary : String
  txKey : String
deriving DecidableEq, Repr

/-- `LogicEngine.match_new_bank_data(bank_df, mapping)` over the rows, with
`used` the set of transaction keys already present in the ledger.  Keys of
emitted entries are added to `used` as the scan proceeds; rows skipped for
any reason do not extend `used`. -/
def matchNewBankData (tenants : List TenantM) (mp : MMapping) :
    List BRow → List String → List LedgerEntry
  | [], _ => []
  | tx :: rest, used =>
    match mp.sender, mp.amount with
    | some sc, some ac =>
      if typeRejects tx mp then matchNewBankData tenants mp rest used
      else
        let summaryRaw := rowGet tx sc ""
        let summary := normalizeNameStr summaryRaw
        let txKey := flexKey tx mp
        if used.contains txKey then matchNewBankData tenants mp rest used
        else
          match findTenantMatch tenants summary with
          | none => matchNewBankData tenants mp rest used
          | some pid =>
            match extractEntryDate tx mp with
            | none => matchNewBankData tenants mp rest used
            | some dt =>
              ⟨pid, dt, rowGet tx ac "0", summaryRaw, txKey⟩ ::
                matchNewBankData tenants mp rest (txKey :: used)
    | _, _ => matchNewBankData tenants mp rest used

/-! Base-date resolution in `TenantRecordDB.__init__` (claim C10). -/

/-- A string Python treats as an absent base date:
`not bd_str or bd_str.lower() in ('none', 'nan')`. -/
def sentinelAbsent (s : String) : Bool :=
  s == "" || strLower s == "none" || strLower s == "nan"

/-- Model of `pd.to_datetime(s)` with its default `errors='raise'` on a
string argument: a parsed date for the date shapes this repository's data
uses (`YYYY-MM-DD` / `YYYY/MM/DD`, per `parseDateStr`), `NaT` for the NaT
spelling, and an uncaught exception (`Except.error`) for anything else.
Pandas also accepts further formats (month names, trailing times, ...) that
this model does not cover, so no theorem quantifies over the parse outcome
of arbitrary present strings — only over absent/sentinel inputs, which
never reach the parser, and over concrete literals. -/
def pdToDatetime (s : String) : Except String (Option CalDate) :=
  match parseDateStr s with
  | some dt => Except.ok (some dt)
  | none =>
    if strLower (strTrim s) == "nat" then Except.ok none
    else Except.error "ValueError"

/-- The base-date resolution of `TenantRecordDB.__init__`: `Values.base_date`
if present and non-sentinel, else `BaseDebtDate` likewise, else the literal
`'2026-02-13'`; the survivor goes through `pd.to_datetime` with
`errors='raise'`, so an unparseable present string propagates the exception
(the tenant record is never constructed and no default is assigned), and
only a `NaT` result falls back to `Timestamp(2026, 2, 13)` via the
`pd.isna` guard. -/
def resolveBaseDate (valuesBaseDate baseDebtDate : Option String) :
    Except String CalDate :=
  let bd1 : Option String :=
    match valuesBaseDate with
    | some s => if sentinelAbsent s then none else some s
    | none => none
  let bd2 : Option String :=
    match bd1 with
    | some s => some s
    | none =>
      match baseDebtDate with
      | some s => if sentinelAbsent s then none else some s
      | none => none
  let bdStr := match bd2 with | some s => s | none => "2026-02-13"
  match pdToDatetime bdStr with
  | Except.error e => Except.error e
  | Except.ok (some dt) => Except.ok dt
  | Except.ok none => Except.ok ⟨2026, 2, 13⟩

/-! Specification-side definitions, written from the spec's words, for the
refinement-style claims. -/

/-- The FIFO allocation pass as the spec words it: "apply
`min(remaining_need, remaining_deposit)` to each unpaid-or-partially-paid
obligation in order until the deposit is exhausted or all obligations are
satisfied; any leftover becomes that deposit's surplus", recording per
allocation the period, amount applied, and whether the obligation became
fully satisfied. -/
def specFIFO (amt : Int) : List Debt → WalkRes
  | [] => ⟨amt, [], []⟩
  | d :: rest =>
    if amt = 0 then ⟨amt, d :: rest, []⟩
    else if d.paid < d.amount then
      let a := minQ (d.amount - d.paid) amt
      let d' : Debt := { d with paid := d.paid + a }
      let w := specFIFO (amt - a) rest
      ⟨w.remaining, d' :: w.debts,
        (⟨d.month, a, decide (d.amount ≤ d'.paid)⟩ : Alloc) :: w.allocs⟩
    else
      let w := specFIFO amt rest
      ⟨w.remaining, d :: w.debts, w.allocs⟩

/-! Helper lemmas. -/

/-! Concrete fixtures used by the claim theorems, witnesses and
counterexamples. -/

def fifoTenant : TenantDB := ⟨60000, ⟨2025,12,16⟩, 24500, 0, 0, false, none, false, ""⟩

def fifoDebts : List Debt :=
  [⟨⟨2026,1,1⟩, 1000, 0, false, false⟩, ⟨⟨2026,2,1⟩, 1000, 0, false, false⟩,
   ⟨⟨2026,3,1⟩, 1000, 0, false, false⟩]

def fifoPayment : PaymentIn := ⟨⟨2026,1,15⟩, 2500⟩

def c2Tenant : TenantDB := ⟨60000, ⟨2025,12,16⟩, 24500, 0, 0, false, none, false, ""⟩

def c3Tenant : TenantDB := ⟨60000, ⟨2025,12,16⟩, 24500, 0, 0, false, some ⟨2026,1,10⟩, false, ""⟩

def c3Debts : List Debt := [⟨⟨2026,1,1⟩, 60000, 0, false, false⟩]

def c3Payment : PaymentIn := ⟨⟨2026,1,5⟩, 999999⟩

def c5Tenant : TenantDB := ⟨60000, ⟨2026,1,1⟩, 24500, 0, 0, false, none, false, ""⟩

def c5wTenant : TenantDB := ⟨60000, ⟨2025,12,16⟩, 24500, 0, 0, false, none, false, ""⟩

def c5wPayments : List PaymentIn := [⟨⟨2026,1,15⟩, 10000⟩]

def c6Tenant : TenantDB := ⟨60000, ⟨2025,12,16⟩, 24500, 0, 0, false, none, false, ""⟩

def c7Table : Table :=
  ⟨["c0","c1","c2","c3","c4","c5","c6","c7","c8","c9","c10","c11","c12","c13",
    "c14","c15","c16"],
   [⟨[("c14","2026"),("c15","1"),("c16","15"),("c11","60000")]⟩]⟩

def c7Mapping : CMapping := ⟨none, none, some "c11", none, none, 0⟩

def c7wTable : Table := ⟨["日付"], [⟨[("日付","2026-01-15")]⟩]⟩

def c7wMapping : CMapping := ⟨some "日付", none, none, none, none, 0⟩

def c8Table : Table := ⟨["日付", "金額", "摘要"],
  [⟨[("日付","2026-01-15"),("金額","60,000"),("摘要","振込 タナカ")]⟩,
   ⟨[("日付","2026-02-15"),("金額","61000"),("摘要","振込 スズキ")]⟩]⟩

def c9Tenant : TenantLegacy := ⟨60000, ⟨2000,1,1⟩, "2月分のうち100000円入金", 0, none⟩

def c9wTenant : TenantDB := ⟨60000, ⟨2025,12,16⟩, 24500, 0, 0, false, none, false, ""⟩

/-- A base-date input that is absent or one of the sentinel strings the
source treats as absent (`''`, `'none'`, `'nan'`) — the inputs that never
reach `pd.to_datetime` at all. -/
def absentOrSentinel (x : Option String) : Prop :=
  ∀ s, x = some s → sentinelAbsent s = true

def c10LegacyA : TenantLegacy := ⟨60000, ⟨2000,1,1⟩, "2月分のうち1000円入金", 0, none⟩

def c10LegacyB : TenantLegacy := ⟨60000, ⟨2000,1,1⟩, "", 0, none⟩

/-- Lower bound of `minQ` by its left argument. -/

theorem minQ_le_left (a b : Int) : minQ a b ≤ a := by
  unfold minQ; split
  · exact le_refl a
  · linarith [lt_of_not_le (by assumption : ¬ a ≤ b)]

/-- Lower bound of `minQ` by its right argument. -/

theorem minQ_le_right (a b : Int) : minQ a b ≤ b := by
  unfold minQ; split
  · assumption
  · exact le_refl b

/-- `minQ` of two positives is positive. -/

theorem minQ_pos {a b : Int} (ha : 0 < a) (hb : 0 < b) : 0 < minQ a b := by
  unfold minQ; split <;> assumption

/-- The FIFO loop on an exhausted amount stops immediately. -/

theorem allocWalk_zero (l : List Debt) : allocWalk 0 l = ⟨0, l, []⟩ := by
  cases l with
  | nil => rfl
  | cons d rest =>
    simp only [allocWalk]
    split_ifs <;>
      first
        | rfl
        | (exfalso; linarith [minQ_le_right (d.amount - d.paid) 0])

/-- The spec-side FIFO pass on an exhausted amount stops immediately. -/

theorem specFIFO_zero (l : List Debt) : specFIFO 0 l = ⟨0, l, []⟩ := by
  cases l with
  | nil => rfl
  | cons d rest => simp [specFIFO]

/-- The source's FIFO loop computes exactly the spec's FIFO pass whenever
the amount being allocated is non-negative. -/

theorem allocWalk_eq_specFIFO (rem : Int) (l : List Debt) (h : 0 ≤ rem) :
    allocWalk rem l = specFIFO rem l := by
  induction l generalizing rem with
  | nil => rfl
  | cons d rest ih =>
    rcases eq_or_lt_of_le h with hz | hpos
    · rw [← hz, allocWalk_zero, specFIFO_zero]
    · by_cases hp : d.paid < d.amount
      · have hneed : 0 < d.amount - d.paid := by linarith
        have halloc : 0 < minQ (d.amount - d.paid) rem := minQ_pos hneed hpos
        by_cases hrem : rem - minQ (d.amount - d.paid) rem ≤ 0
        · have hrz : rem - minQ (d.amount - d.paid) rem = 0 := by
            have := minQ_le_right (d.amount - d.paid) rem
            linarith
          simp only [allocWalk, specFIFO, if_pos hp, if_pos halloc, if_pos hrem,
            if_neg (ne_of_gt hpos)]
          rw [hrz, specFIFO_zero]
        · simp only [allocWalk, specFIFO, if_pos hp, if_pos halloc, if_neg hrem,
            if_neg (ne_of_gt hpos)]
          rw [ih _ (by linarith [lt_of_not_le hrem])]
      · simp only [allocWalk, specFIFO, if_neg hp, if_neg (not_le_of_lt hpos),
          if_neg (ne_of_gt hpos)]
        rw [ih _ h]

/-- Outputs of the payment fold dated on or before the cutoff are exactly
the skipped ones: empty allocations, zero surplus, marked as already
accounted for. -/

theorem processAll_out_mem (cutoff : CalDate) (debts : List Debt)
    (payments : List PaymentIn) :
    ∀ po ∈ (processAllPayments cutoff debts payments).2,
      dateLeB po.date cutoff = true →
      po.allocations = [] ∧ po.surplus = 0 ∧ po.accountedBefore = true := by
  induction payments generalizing debts with
  | nil => simp [processAllPayments]
  | cons p rest ih =>
    intro po hmem hdate
    simp only [processAllPayments] at hmem
    rcases List.mem_cons.mp hmem with h | h
    · subst h
      by_cases hc : dateLeB p.date cutoff = true
      · simp [processPayment, hc]
      · simp only [processPayment, hc, Bool.false_eq_true, if_false] at hdate
    · exact ih _ po h hdate

/-! Claim C1: post-cutoff deposits are allocated FIFO per the spec. -/

/-- C1: for every tenant, obligations state, and deposit dated after the
cutoff, `allocate_payments` processes the deposit exactly as the spec's FIFO
description: apply `min(amount - paid, remaining)` to each obligation with
`paid < amount` in order, stop when the deposit is exhausted or all
obligations are satisfied, and record the remainder as the deposit's
surplus (allocations record period, amount applied, and full/partial). -/

theorem post_cutoff_deposit_allocates_fifo (t : TenantDB) (debts : List Debt)
    (p : PaymentIn) (hcut : dateLeB p.date (cutoffDateDB t) = false)
    (hamt : 0 ≤ p.amount) :
    processPayment (cutoffDateDB t) debts p =
      ((specFIFO p.amount debts).debts,
       ⟨p.date, p.amount, (specFIFO p.amount debts).allocs,
        (specFIFO p.amount debts).remaining, false⟩) := by
  unfold processPayment
  simp only [hcut, Bool.false_eq_true, if_false]
  rw [allocWalk_eq_specFIFO _ _ hamt]

/-- C1 witness: three unpaid obligations of 1000 and a post-cutoff deposit
of 2500 allocate as m1 fully paid, m2 fully paid, m3 partially paid 500,
with surplus 0. -/

theorem post_cutoff_deposit_allocates_fifo_witness :
    processPayment (cutoffDateDB fifoTenant) fifoDebts fifoPayment =
      ([⟨⟨2026,1,1⟩, 1000, 1000, false, false⟩,
        ⟨⟨2026,2,1⟩, 1000, 1000, false, false⟩,
        ⟨⟨2026,3,1⟩, 1000, 500, false, false⟩],
       ⟨⟨2026,1,15⟩, 2500,
        [⟨⟨2026,1,1⟩, 1000, true⟩, ⟨⟨2026,2,1⟩, 1000, true⟩,
         ⟨⟨2026,3,1⟩, 500, false⟩],
        0, false⟩) := by
  rw [post_cutoff_deposit_allocates_fifo fifoTenant fifoDebts fifoPayment
    (by decide) (by decide)]
  decide

/-! Claim C2: which months `calculate_debts` emits rent obligations for. -/

/-- C2 counterexample: for rent 60000 and baseline debt 24500 dated
2025-12-16 (not day 1), the code emits the carry-over at month 2025-11 and a
regular 60000 rent obligation for December 2025 — not, as claimed, a
carry-over at 2025-12 with monthly obligations starting at January 2026. -/

theorem baseline_start_month_counterexample :
    calculateDebtsDB c2Tenant ⟨2026,1,15⟩ =
      [⟨⟨2025,11,1⟩, 24500, 0, true, false⟩,
       ⟨⟨2025,12,1⟩, 60000, 0, false, false⟩,
       ⟨⟨2026,1,1⟩, 60000, 0, false, false⟩,
       ⟨⟨2026,2,1⟩, 60000, 0, false, false⟩] ∧
    (calculateDebtsDB c2Tenant ⟨2026,1,15⟩).any
      (fun d => !d.isCarryOver && d.month == ⟨2025,12,1⟩) = true := by
  constructor
  · decide
  · decide

/-- C2 amended: `calculate_debts` emits one monthly rent obligation for
every calendar month from the baseline month (the month of the baseline
date, regardless of its day-of-month) through one month past the evaluation
date inclusive. -/

theorem monthly_obligations_from_baseline_month (t : TenantDB) (target : CalDate) :
    (calculateDebtsDB t target).filter (fun d => !d.isCarryOver) =
      (List.range (monthIdx (normalizeMonthD target) + 2 -
          monthIdx (normalizeMonthD t.baseDate)).toNat).map
        (fun (k : Nat) => ⟨firstOfMonth (monthIdx (normalizeMonthD t.baseDate) + (k : Int)),
          t.rent, 0, false, false⟩) := by
  unfold calculateDebtsDB
  simp only [List.filter_append]
  have h1 : ∀ (c : CalDate) (a : Int) (j : Bool),
      (if 0 < a then [(⟨c, a, 0, true, j⟩ : Debt)] else []).filter
        (fun d => !d.isCarryOver) = [] := by
    intro c a j; split <;> simp
  rw [h1, h1]
  simp only [List.nil_append]
  rw [List.filter_eq_self.mpr]
  · have harith : monthIdx (normalizeMonthD target) + 2 -
        monthIdx (normalizeMonthD t.baseDate) =
        monthIdx (normalizeMonthD target) + 1 + 1 -
        monthIdx (normalizeMonthD t.baseDate) := by ring
    rw [harith]
  · intro a ha
    obtain ⟨k, _, rfl⟩ := List.mem_map.mp ha
    rfl

/-! Claim C3: deposits on or before the cutoff are never allocated. -/

/-- C3: a deposit dated on or before the cutoff is marked already accounted
for and never allocated — processing it leaves the obligations unchanged and
gives it an empty allocations list, whatever its amount; and the cutoff is
`last_confirmed_date` when set, else 15 days before the month of the
baseline date (the first accrual month) for clean-start tenants, else the
baseline date itself. -/

theorem cutoff_deposits_skipped :
    (∀ (t : TenantDB) (debts : List Debt) (p : PaymentIn),
      dateLeB p.date (cutoffDateDB t) = true →
      processPayment (cutoffDateDB t) debts p =
        (debts, ⟨p.date, p.amount, [], 0, true⟩)) ∧
    (∀ (t : TenantDB) (debts : List Debt) (payments : List PaymentIn),
      ∀ po ∈ (allocatePaymentsDB t debts payments).2,
        dateLeB po.date (cutoffDateDB t) = true →
        po.allocations = [] ∧ po.surplus = 0 ∧ po.accountedBefore = true) ∧
    (∀ (t : TenantDB) (lcd : CalDate), t.lastConfirmedDate = some lcd →
      cutoffDateDB t = lcd) ∧
    (∀ t : TenantDB, t.lastConfirmedDate = none → t.isCleanStart = true →
      cutoffDateDB t = subDaysFromMonthStart t.baseDate 15) ∧
    (∀ t : TenantDB, t.lastConfirmedDate = none → t.isCleanStart = false →
      cutoffDateDB t = t.baseDate) := by
  refine ⟨?_, ?_, ?_, ?_, ?_⟩
  · intro t debts p h
    unfold processPayment
    simp [h]
  · intro t debts payments po hmem hdate
    exact processAll_out_mem (cutoffDateDB t) (applyVirtual t debts) _ po hmem hdate
  · intro t lcd h
    unfold cutoffDateDB
    rw [h]
  · intro t h1 h2
    unfold cutoffDateDB
    rw [h1, h2]
    simp
  · intro t h1 h2
    unfold cutoffDateDB
    rw [h1, h2]
    simp

/-- C3 witness: a large deposit dated before the confirmed date is skipped,
leaving the obligation untouched. -/

theorem cutoff_deposits_skipped_witness :
    processPayment (cutoffDateDB c3Tenant) c3Debts c3Payment =
      (c3Debts, ⟨⟨2026,1,5⟩, 999999, [], 0, true⟩) :=
  cutoff_deposits_skipped.1 c3Tenant c3Debts c3Payment (by decide)

/-! Claim C4: ingestion is idempotent. -/

/-- When the second run already knows every key the first run knew and every
key the first run recorded, the scan emits nothing: every row is either
excluded for row-local, `used`-independent reasons (missing sender/amount
mapping, type filter, no tenant match, bad date) exactly as before, or its
key is already present and it is excluded silently. -/

theorem matchNewBankData_nil (tenants : List TenantM) (mp : MMapping) :
    ∀ (rows : List BRow) (used used' : List String),
      (∀ k, used.contains k = true → used'.contains k = true) →
      (∀ e ∈ matchNewBankData tenants mp rows used, used'.contains e.txKey = true) →
      matchNewBankData tenants mp rows used' = [] := by
  intro rows
  induction rows with
  | nil => intro used used' _ _; rfl
  | cons tx rest ih =>
    intro used used' hsub hkeys
    cases hs : mp.sender with
    | none =>
      simp only [matchNewBankData, hs]
      refine ih used used' hsub ?_
      intro e he
      refine hkeys e ?_
      simpa only [matchNewBankData, hs] using he
    | some sc =>
      cases ha : mp.amount with
      | none =>
        simp only [matchNewBankData, hs, ha]
        refine ih used used' hsub ?_
        intro e he
        refine hkeys e ?_
        simpa only [matchNewBankData, hs, ha] using he
      | some ac =>
        simp only [matchNewBankData, hs, ha] at hkeys ⊢
        by_cases ht : typeRejects tx mp = true
        · simp only [ht, if_true]
          simp only [ht, if_true] at hkeys
          exact ih used used' hsub hkeys
        · simp only [ht, Bool.false_eq_true, if_false] at hkeys ⊢
          by_cases hk : used.contains (flexKey tx mp) = true
          · simp only [hk, if_true] at hkeys
            simp only [hsub _ hk, if_true]
            exact ih used used' hsub hkeys
          · simp only [hk, Bool.false_eq_true, if_false] at hkeys
            cases hm : findTenantMatch tenants (normalizeNameStr (rowGet tx sc "")) with
            | none =>
              simp only [hm] at hkeys
              by_cases hk' : used'.contains (flexKey tx mp) = true
              · simp only [hk', if_true]
                exact ih used used' hsub hkeys
              · simp only [hk', Bool.false_eq_true, if_false, hm]
                exact ih used used' hsub hkeys
            | some pid =>
              simp only [hm] at hkeys
              cases hd : extractEntryDate tx mp with
              | none =>
                simp only [hd] at hkeys
                by_cases hk' : used'.contains (flexKey tx mp) = true
                · simp only [hk', if_true]
                  exact ih used used' hsub hkeys
                · simp only [hk', Bool.false_eq_true, if_false, hm, hd]
                  exact ih used used' hsub hkeys
              | some dt =>
                simp only [hd] at hkeys
                have hhead := hkeys _ (List.mem_cons_self _ _)
                simp only [hhead, if_true]
                refine ih (flexKey tx mp :: used) used' ?_ ?_
                · intro k hkk
                  simp only [List.contains_cons, Bool.or_eq_true, beq_iff_eq] at hkk
                  rcases hkk with hkk | hkk
                  · rw [← hkk] at hhead
                    exact hhead
                  · exact hsub _ hkk
                · intro e he
                  exact hkeys e (List.mem_cons_of_mem _ he)

/-- C4: matching is idempotent with respect to ingestion — running
`match_new_bank_data` a second time against the ledger extended with the
first run's results yields no entries, because each emitted row's
deduplication key (the hash input over its date components,
sender/description, and amount) is already present and the row is excluded
silently. -/

theorem ingestion_idempotent (tenants : List TenantM) (mp : MMapping)
    (rows : List BRow) (used : List String) :
    matchNewBankData tenants mp rows
      (used ++ (matchNewBankData tenants mp rows used).map (fun e => e.txKey))
      = [] := by
  refine matchNewBankData_nil tenants mp rows used _ ?_ ?_
  · intro k hk
    exact List.elem_iff.mpr (List.mem_append_left _ (List.elem_iff.mp hk))
  · intro e he
    exact List.elem_iff.mpr
      (List.mem_append_right _ (List.mem_map_of_mem _ he))

/-! Claim C5: the carry-over obligation is consumed first. -/

/-- `minQ a b` strictly below `b` forces the left argument. -/

theorem minQ_eq_left_of_lt {a b : Int} (h : minQ a b < b) : minQ a b = a := by
  unfold minQ at h ⊢
  split at h
  · split
    · rfl
    · omega
  · omega

/-- One FIFO pass only raises the head obligation's `paid` (never past its
amount unless it started there), and leaves the tail untouched unless the
head came out fully paid. -/

theorem allocWalk_head (rem : Int) (d : Debt) (rest : List Debt) :
    ∃ p' rest',
      (allocWalk rem (d :: rest)).debts =
        (⟨d.month, d.amount, p', d.isCarryOver, d.isManualAdj⟩ : Debt) :: rest' ∧
      d.paid ≤ p' ∧ (p' = d.paid ∨ p' ≤ d.amount) ∧
      (p' < d.amount → rest' = rest) := by
  have hl := minQ_le_left (d.amount - d.paid) rem
  have hr := minQ_le_right (d.amount - d.paid) rem
  simp only [allocWalk]
  split_ifs with h1 h2 h3 h4 h5
  · exact ⟨d.paid + minQ (d.amount - d.paid) rem, rest, rfl, by omega,
      Or.inr (by omega), fun _ => rfl⟩
  · refine ⟨d.paid + minQ (d.amount - d.paid) rem, (allocWalk _ rest).debts, rfl,
      by omega, Or.inr (by omega), fun hlt => ?_⟩
    exfalso
    have : minQ (d.amount - d.paid) rem < rem := by omega
    have := minQ_eq_left_of_lt this
    omega
  · exact ⟨d.paid, rest, rfl, le_refl _, Or.inl rfl, fun _ => rfl⟩
  · exfalso
    have : 0 < minQ (d.amount - d.paid) rem := minQ_pos (by omega) (by omega)
    omega
  · exact ⟨d.paid, rest, rfl, le_refl _, Or.inl rfl, fun _ => rfl⟩
  · exact ⟨d.paid, (allocWalk rem rest).debts, rfl, le_refl _, Or.inl rfl,
      fun hlt => absurd hlt h1⟩

/-- `allocWalk_head` extended over the whole payment fold, stated on the
head obligation's fields. -/

theorem processAll_head (cutoff : CalDate) (payments : List PaymentIn) :
    ∀ (mo : CalDate) (am pd : Int) (cf jf : Bool) (rest : List Debt),
    ∃ p' rest',
      (processAllPayments cutoff ((⟨mo, am, pd, cf, jf⟩ : Debt) :: rest) payments).1 =
        (⟨mo, am, p', cf, jf⟩ : Debt) :: rest' ∧
      pd ≤ p' ∧ (p' = pd ∨ p' ≤ am) ∧ (p' < am → rest' = rest) := by
  induction payments with
  | nil =>
    intro mo am pd cf jf rest
    exact ⟨pd, rest, rfl, le_refl _, Or.inl rfl, fun _ => rfl⟩
  | cons p ps ih =>
    intro mo am pd cf jf rest
    simp only [processAllPayments, processPayment]
    by_cases hc : dateLeB p.date cutoff = true
    · simp only [hc, if_true]
      exact ih mo am pd cf jf rest
    · simp only [hc, Bool.false_eq_true, if_false]
      obtain ⟨p1, rest1, heq, hle1, hd1, hf1⟩ :=
        allocWalk_head p.amount ⟨mo, am, pd, cf, jf⟩ rest
      dsimp only at heq hle1 hd1 hf1
      rw [heq]
      obtain ⟨p2, rest2, heq2, hle2, hd2, hf2⟩ := ih mo am p1 cf jf rest1
      refine ⟨p2, rest2, heq2, le_trans hle1 hle2, ?_, ?_⟩
      · rcases hd2 with h | h
        · rw [h]
          exact hd1
        · exact Or.inr h
      · intro hlt
        rw [hf2 hlt, hf1 (by omega)]

/-- The virtual-surplus pre-fill also only raises the head's `paid` and
leaves the tail untouched unless the head came out fully paid. -/

theorem applyVirtual_head (t : TenantDB) (mo : CalDate) (am pd : Int)
    (cf jf : Bool) (rest : List Debt) :
    ∃ p' rest',
      applyVirtual t ((⟨mo, am, pd, cf, jf⟩ : Debt) :: rest) =
        (⟨mo, am, p', cf, jf⟩ : Debt) :: rest' ∧
      pd ≤ p' ∧ (p' = pd ∨ p' ≤ am) ∧ (p' < am → rest' = rest) := by
  simp only [applyVirtual]
  split
  · obtain ⟨p', rest', heq, h1, h2, h3⟩ :=
      allocWalk_head (virtualSurplus t) ⟨mo, am, pd, cf, jf⟩ rest
    dsimp only at heq h1 h2 h3
    exact ⟨p', rest', heq, h1, h2, h3⟩
  · exact ⟨pd, rest, rfl, le_refl _, Or.inl rfl, fun _ => rfl⟩

/-- Every obligation built by `calculate_debts` starts with `paid = 0`. -/

theorem calculateDebtsDB_paid_zero (t : TenantDB) (target : CalDate) :
    ∀ d ∈ calculateDebtsDB t target, d.paid = 0 := by
  intro d hd
  unfold calculateDebtsDB at hd
  rcases List.mem_append.mp hd with h | h
  · rcases List.mem_append.mp h with h2 | h2
    · split at h2 <;> simp_all
    · split at h2 <;> simp_all
  · obtain ⟨k, _, rfl⟩ := List.mem_map.mp h
    rfl

/-- For a non-clean-start tenant with positive initial balance, the debts
list starts with the carry-over, and everything after it starts unpaid. -/

theorem calculateDebtsDB_carry_head (t : TenantDB) (target : CalDate)
    (hclean : t.isCleanStart = false) (hpos : 0 < t.baseDebt - t.baseSurplus) :
    ∃ tail, calculateDebtsDB t target =
      (⟨firstOfMonth (monthIdx (normalizeMonthD t.baseDate) - 1),
        t.baseDebt - t.baseSurplus, 0, true, false⟩ : Debt) :: tail ∧
      ∀ d ∈ tail, d.paid = 0 := by
  have hz := calculateDebtsDB_paid_zero t target
  unfold calculateDebtsDB at hz ⊢
  simp only [hclean, Bool.false_eq_true, if_false, if_pos hpos] at hz ⊢
  refine ⟨_, rfl, ?_⟩
  intro d hd
  exact hz d (List.mem_cons_of_mem _ hd)

/-- C5 (amended): for every non-clean-start tenant with positive initial
balance `base_debt - base_surplus`, the pipeline's first obligation is the
carry-over, dated to the month preceding the baseline month (the month
preceding the first accrual month — also when the baseline falls on day 1),
and it is consumed first: as long as it is not fully paid, every later
obligation (manual-adjustment or monthly rent) has received nothing. -/

theorem carry_over_consumed_first (t : TenantDB) (payments : List PaymentIn)
    (target : CalDate) (hclean : t.isCleanStart = false)
    (hpos : 0 < t.baseDebt - t.baseSurplus) :
    ∃ p' rest',
      (runTenantDB t payments target).1 =
        (⟨firstOfMonth (monthIdx (normalizeMonthD t.baseDate) - 1),
          t.baseDebt - t.baseSurplus, p', true, false⟩ : Debt) :: rest' ∧
      0 ≤ p' ∧ p' ≤ t.baseDebt - t.baseSurplus ∧
      (p' < t.baseDebt - t.baseSurplus → ∀ d ∈ rest', d.paid = 0) := by
  obtain ⟨tail, hdebts, htail⟩ := calculateDebtsDB_carry_head t target hclean hpos
  unfold runTenantDB allocatePaymentsDB
  rw [hdebts]
  obtain ⟨p1, rest1, heq1, hle1, hd1, hf1⟩ := applyVirtual_head t _ _ 0 true false tail
  rw [heq1]
  obtain ⟨p2, rest2, heq2, hle2, hd2, hf2⟩ :=
    processAll_head (cutoffDateDB t) (sortPayments payments) _ _ p1 true false rest1
  refine ⟨p2, rest2, heq2, by omega, ?_, ?_⟩
  · rcases hd2 with h | h
    · rcases hd1 with h' | h'
      · omega
      · omega
    · exact h
  · intro hlt d hd
    have hr1 : rest2 = rest1 := hf2 hlt
    have hr2 : rest1 = tail := hf1 (by omega)
    rw [hr1, hr2] at hd
    exact htail d hd

/-- C5 counterexample (to the day-1 dating clause): for a baseline that
falls on day 1 (2026-01-01), the carry-over is dated 2025-12-01 — the month
preceding the baseline month — not the baseline month itself as claimed. -/

theorem carry_month_day_one_counterexample :
    (calculateDebtsDB c5Tenant ⟨2026,2,15⟩).head? =
      some ⟨⟨2025,12,1⟩, 24500, 0, true, false⟩ ∧
    (⟨2025,12,1⟩ : CalDate) ≠ ⟨2026,1,1⟩ := by decide

/-- C5 witness: with a 10000 deposit against a 24500 carry-over, the carry
is the head obligation, partially paid, and every later obligation is
untouched. -/

theorem carry_over_consumed_first_witness :
    ∃ p' rest',
      (runTenantDB c5wTenant c5wPayments ⟨2026,1,20⟩).1 =
        (⟨firstOfMonth (monthIdx (normalizeMonthD c5wTenant.baseDate) - 1),
          c5wTenant.baseDebt - c5wTenant.baseSurplus, p', true, false⟩ : Debt) :: rest' ∧
      0 ≤ p' ∧ p' ≤ c5wTenant.baseDebt - c5wTenant.baseSurplus ∧
      (p' < c5wTenant.baseDebt - c5wTenant.baseSurplus → ∀ d ∈ rest', d.paid = 0) :=
  carry_over_consumed_first c5wTenant c5wPayments ⟨2026,1,20⟩ (by decide) (by decide)

/-- Bind on an `Except` error short-circuits. -/

theorem exceptBind_error {α β : Type} (s : String) (f : α → Except String β) :
    ((Except.error s : Except String α) >>= f) = Except.error s := rfl

/-- Bind on an `Except` success applies the continuation. -/

theorem exceptBind_ok {α β : Type} (a : α) (f : α → Except String β) :
    ((Except.ok a : Except String α) >>= f) = f a := rfl

/-- Map over an `Except` error short-circuits. -/

theorem exceptMap_error {α β : Type} (s : String) (f : α → β) :
    (f <$> (Except.error s : Except String α)) = Except.error s := rfl

/-- Map over an `Except` success applies the function. -/

theorem exceptMap_ok {α β : Type} (a : α) (f : α → β) :
    (f <$> (Except.ok a : Except String α)) = Except.ok (f a) := rfl

/-! Claim C6: the binary delinquency status of `process_status`. -/

/-- C6: for every non-separately-managed tenant, `process_status` reports
status "滞納あり" (delinquent) exactly when the total overdue is positive
and "正常" (normal) otherwise, with the overdue evaluated at the current
month, shifted one month earlier for clean-start tenants when the
evaluation's day-of-month is before the 20th. -/

theorem status_delinquent_iff (t : TenantDB) (payments : List PaymentIn)
    (today : CalDate) (hsep : t.separateMgmt = false) :
    ∃ e, processStatusTenant t payments today = some e ∧
      (e.status = "滞納あり" ↔
        0 < getTotalOverdue (runTenantDB t payments today).1
          (statusTargetMonth t today)) ∧
      (e.status = "正常" ↔
        ¬ 0 < getTotalOverdue (runTenantDB t payments today).1
          (statusTargetMonth t today)) ∧
      statusTargetMonth t today =
        (if t.isCleanStart && today.d < 20 then
          firstOfMonth (monthIdx (normalizeMonthD today) - 1)
         else normalizeMonthD today) := by
  unfold processStatusTenant
  simp only [hsep, Bool.false_eq_true, if_false]
  refine ⟨_, rfl, ?_, ?_, rfl⟩
  · by_cases h : 0 < getTotalOverdue (runTenantDB t payments today).1
        (statusTargetMonth t today)
    · simp [h]
    · simp only [if_neg h]
      constructor
      · intro hs
        exact absurd hs (by decide)
      · intro hs
        exact absurd h (by simp [hs])
  · by_cases h : 0 < getTotalOverdue (runTenantDB t payments today).1
        (statusTargetMonth t today)
    · simp only [if_pos h]
      constructor
      · intro hs
        exact absurd hs (by decide)
      · intro hs
        exact absurd h hs
    · simp [h]

/-- C6 witness: a tenant with an unpaid baseline debt and no deposits is
reported delinquent. -/

theorem status_delinquent_iff_witness :
    ∃ e, processStatusTenant c6Tenant [] ⟨2026,1,15⟩ = some e ∧
      e.status = "滞納あり" := by
  obtain ⟨e, he, h1, _, _⟩ := status_delinquent_iff c6Tenant [] ⟨2026,1,15⟩ (by decide)
  exact ⟨e, he, h1.mpr (by decide)⟩

/-! Claim C7: when `normalize_bank_data` raises. -/

/-- C7 counterexample: on a 17-column table with a mapping from which no
date column can be determined, `normalize_bank_data` raises nothing — the
hardcoded positional fallback silently builds the date from columns 14–16
and the call succeeds. -/

theorem normalize_mapping_failure_counterexample :
    c7Mapping.date = none ∧ c7Mapping.dateParts = none ∧
    normalizeBankData c7Table c7Mapping =
      Except.ok [⟨some ⟨2026,1,15⟩, some 60000, ""⟩] := by
  refine ⟨rfl, rfl, ?_⟩
  decide

/-- C7 (amended): `normalize_bank_data` raises a descriptive error whenever
the amount column cannot be determined from the mapping; for the date it
raises only when, in addition, the table has fewer than 17 columns — with 17
or more columns the positional fallback silently constructs dates instead of
raising. -/

theorem normalize_raises_characterization :
    (∀ (tb : Table) (mp : CMapping), mp.amount = none →
      ∃ s, normalizeBankData tb mp = Except.error s) ∧
    (∀ (tb : Table) (mp : CMapping), tb.cols.length < 17 →
      mp.dateParts = none → mp.date = none →
      normalizeBankData tb mp =
        Except.error "日付列が特定できません。手動でマッピングしてください。") := by
  constructor
  · intro tb mp hma
    unfold normalizeBankData
    dsimp only
    cases hd : buildDates tb mp (filteredRows tb mp) with
    | error s =>
      exact ⟨s, exceptBind_error _ _⟩
    | ok l =>
      refine ⟨"金額列が特定できません。手動でマッピングしてください。", ?_⟩
      have ha : buildAmounts tb mp (filteredRows tb mp) =
          Except.error "金額列が特定できません。手動でマッピングしてください。" := by
        unfold buildAmounts
        rw [hma]
      rw [exceptBind_ok, ha, exceptBind_error]
  · intro tb mp h17 hdp hdc
    have hd : buildDates tb mp (filteredRows tb mp) =
        Except.error "日付列が特定できません。手動でマッピングしてください。" := by
      unfold buildDates
      rw [if_neg (by omega), hdp, hdc]
    unfold normalizeBankData
    dsimp only
    rw [hd, exceptBind_error]

/-- C7 witness: a mapping with no amount column raises, and a short table
with neither date mapping nor 17 columns raises the date error. -/

theorem normalize_raises_characterization_witness :
    (∃ s, normalizeBankData c7wTable c7wMapping = Except.error s) ∧
    normalizeBankData (⟨["金額"], []⟩ : Table)
        (⟨none, none, some "金額", none, none, 0⟩ : CMapping) =
      Except.error "日付列が特定できません。手動でマッピングしてください。" :=
  ⟨normalize_raises_characterization.1 c7wTable c7wMapping rfl,
   normalize_raises_characterization.2 ⟨["金額"], []⟩ _ (by decide) rfl rfl⟩

/-! Claim C8: round-trip normalization output validity. -/

/-- Every row a successful `normalize_bank_data` returns passed the final
filter: valid date, present and strictly positive amount. -/

theorem normalizeBankData_ok_rows (tb : Table) (mp : CMapping)
    (out : List CanonRow) (h : normalizeBankData tb mp = Except.ok out) :
    ∀ r ∈ out, r.date.isSome = true ∧ ∃ q, r.amount = some q ∧ 0 < q := by
  intro r hr
  unfold normalizeBankData at h
  dsimp only at h
  cases hd : buildDates tb mp (filteredRows tb mp) with
  | error s =>
    rw [hd, exceptBind_error] at h
    exact absurd h (by simp)
  | ok dates =>
    cases ha : buildAmounts tb mp (filteredRows tb mp) with
    | error s =>
      rw [hd, exceptBind_ok, ha, exceptBind_error] at h
      exact absurd h (by simp)
    | ok amounts =>
      rw [hd, exceptBind_ok, ha, exceptBind_ok] at h
      simp only [pure, Except.pure, Except.ok.injEq] at h
      subst h
      have hk : keptRow r = true := List.of_mem_filter hr
      unfold keptRow at hk
      rcases (Bool.and_eq_true _ _).mp hk with ⟨h1, h2⟩
      refine ⟨h1, ?_⟩
      cases hamt : r.amount with
      | none => rw [hamt] at h2; exact absurd h2 (by decide)
      | some q =>
        rw [hamt] at h2
        simp only [decide_eq_true_eq] at h2
        exact ⟨q, rfl, h2⟩

/-- C8: for every raw table on which `normalize(rawTable,
suggest_mapping(rawTable))` succeeds, the output table (whose rows carry
exactly the three columns Date, Amount, Summary) has a valid calendar date
and a strictly positive amount in every row. -/

theorem roundtrip_mapping_valid (tb : Table) (out : List CanonRow)
    (h : normalizeBankData tb (suggestMappingH tb) = Except.ok out) :
    ∀ r ∈ out, r.date.isSome = true ∧ ∃ q, r.amount = some q ∧ 0 < q :=
  normalizeBankData_ok_rows tb _ out h

/-- C8 witness: the detected-then-normalized form of a small bank table has
a valid date and positive amount in its first row. -/

theorem roundtrip_mapping_valid_witness :
    (⟨some ⟨2026,1,15⟩, some 60000, "振込 タナカ"⟩ : CanonRow).date.isSome = true ∧
    ∃ q, (⟨some ⟨2026,1,15⟩, some 60000, "振込 タナカ"⟩ : CanonRow).amount = some q ∧
      0 < q :=
  roundtrip_mapping_valid c8Table
    [⟨some ⟨2026,1,15⟩, some 60000, "振込 タナカ"⟩,
     ⟨some ⟨2026,2,15⟩, some 61000, "振込 スズキ"⟩]
    (by decide) _ (by decide)

/-! Claim C9: monotonicity of `get_total_overdue`. -/

/-- Transitivity of the timestamp order. -/

theorem dateLeB_trans {a b c : CalDate} (h1 : dateLeB a b = true)
    (h2 : dateLeB b c = true) : dateLeB a c = true := by
  simp only [dateLeB, Bool.or_eq_true, Bool.and_eq_true, decide_eq_true_eq,
    beq_iff_eq] at *
  omega

/-- Month truncation preserves the timestamp order. -/

theorem dateLeB_norm_mono {a b : CalDate} (h : dateLeB a b = true) :
    dateLeB (normalizeMonthD a) (normalizeMonthD b) = true := by
  simp only [dateLeB, normalizeMonthD, Bool.or_eq_true, Bool.and_eq_true,
    decide_eq_true_eq, beq_iff_eq] at *
  omega

/-- The FIFO loop never overpays an obligation: `paid ≤ amount` is
preserved (a raised `paid` is `paid + min(amount - paid, _) ≤ amount`). -/

theorem allocWalk_wf : ∀ (debts : List Debt) (rem : Int),
    (∀ d ∈ debts, d.paid ≤ d.amount) →
    ∀ d ∈ (allocWalk rem debts).debts, d.paid ≤ d.amount := by
  intro debts
  induction debts with
  | nil =>
    intro rem _ d hd
    simp [allocWalk] at hd
  | cons d rest ih =>
    intro rem hwf x hx
    have hl := minQ_le_left (d.amount - d.paid) rem
    have htl : ∀ y ∈ rest, y.paid ≤ y.amount :=
      fun y hy => hwf y (List.mem_cons_of_mem _ hy)
    simp only [allocWalk] at hx
    split_ifs at hx with h1 h2 h3 h4 h5
    · rcases List.mem_cons.mp hx with rfl | hx'
      · dsimp only
        omega
      · exact htl x hx'
    · rcases List.mem_cons.mp hx with rfl | hx'
      · dsimp only
        omega
      · exact ih _ htl x hx'
    · exact hwf x hx
    · rcases List.mem_cons.mp hx with rfl | hx'
      · exact hwf _ (List.mem_cons_self _ _)
      · exact ih rem htl x hx'
    · exact hwf x hx
    · rcases List.mem_cons.mp hx with rfl | hx'
      · exact hwf _ (List.mem_cons_self _ _)
      · exact ih rem htl x hx'

/-- `paid ≤ amount` is preserved across the whole payment fold. -/

theorem processAll_wf (cutoff : CalDate) :
    ∀ (payments : List PaymentIn) (debts : List Debt),
    (∀ d ∈ debts, d.paid ≤ d.amount) →
    ∀ d ∈ (processAllPayments cutoff debts payments).1, d.paid ≤ d.amount := by
  intro payments
  induction payments with
  | nil =>
    intro debts hwf
    simpa [processAllPayments] using hwf
  | cons p ps ih =>
    intro debts hwf x hx
    simp only [processAllPayments, processPayment] at hx
    by_cases hc : dateLeB p.date cutoff = true
    · simp only [hc, if_true] at hx
      exact ih debts hwf x hx
    · simp only [hc, Bool.false_eq_true, if_false] at hx
      exact ih _ (allocWalk_wf debts p.amount hwf) x hx

/-- With non-negative rent, every obligation `calculate_debts` builds has a
non-negative amount and starts with `paid = 0 ≤ amount`. -/

theorem calculateDebtsDB_wf (t : TenantDB) (target : CalDate)
    (hrent : 0 ≤ t.rent) :
    ∀ d ∈ calculateDebtsDB t target, d.paid ≤ d.amount := by
  intro d hd
  unfold calculateDebtsDB at hd
  rcases List.mem_append.mp hd with h | h
  · rcases List.mem_append.mp h with h2 | h2
    · split_ifs at h2 <;>
        first
        | (rcases List.mem_singleton.mp h2 with rfl
           dsimp only
           omega)
        | simp at h2
    · split_ifs at h2 <;>
        first
        | (rcases List.mem_singleton.mp h2 with rfl
           dsimp only
           omega)
        | simp at h2
  · obtain ⟨k, _, rfl⟩ := List.mem_map.mp h
    exact hrent

/-- Sum monotonicity of `get_total_overdue` over well-formed obligations. -/

theorem getTotalOverdue_mono (debts : List Debt) (l1 l2 : CalDate)
    (hwf : ∀ d ∈ debts, d.paid ≤ d.amount) (hl : dateLeB l1 l2 = true) :
    getTotalOverdue debts l1 ≤ getTotalOverdue debts l2 := by
  induction debts with
  | nil => simp [getTotalOverdue]
  | cons d rest ih =>
    simp only [getTotalOverdue]
    have hwfd := d.paid ≤ d.amount
    have hd := hwf d (List.mem_cons_self _ _)
    have ihr := ih (fun x hx => hwf x (List.mem_cons_of_mem _ hx))
    by_cases h1 : dateLeB d.month (normalizeMonthD l1) = true
    · have h2 : dateLeB d.month (normalizeMonthD l2) = true :=
        dateLeB_trans h1 (dateLeB_norm_mono hl)
      rw [if_pos h1, if_pos h2]
      omega
    · rw [if_neg h1]
      by_cases h2 : dateLeB d.month (normalizeMonthD l2) = true
      · rw [if_pos h2]
        omega
      · rw [if_neg h2]
        omega

/-- C9 (amended): for the DB engine's pipeline (`calculate_debts` then
`allocate_payments`, where every obligation keeps `paid ≤ amount`),
`get_total_overdue` is monotone in its month argument, for any tenant with
non-negative rent.  The legacy memo path can violate the premise (see the
counterexample), which is exactly what the amendment excludes. -/

theorem overdue_monotone_db (t : TenantDB) (payments : List PaymentIn)
    (today l1 l2 : CalDate) (hrent : 0 ≤ t.rent) (hl : dateLeB l1 l2 = true) :
    getTotalOverdue (runTenantDB t payments today).1 l1 ≤
      getTotalOverdue (runTenantDB t payments today).1 l2 := by
  refine getTotalOverdue_mono _ l1 l2 ?_ hl
  unfold runTenantDB allocatePaymentsDB
  refine processAll_wf _ _ _ ?_
  simp only [applyVirtual]
  split
  · exact allocWalk_wf _ _ (calculateDebtsDB_wf t today hrent)
  · exact calculateDebtsDB_wf t today hrent

/-- C9 counterexample: in the legacy memo path, a partial-payment mention
exceeding the rent (100000 against rent 60000) pre-seeds `paid > amount`
for 2026-02, and `get_total_overdue` then decreases from month 2026-01
(total 0) to month 2026-02 (total -40000). -/

theorem overdue_monotonicity_counterexample :
    dateLeB ⟨2026,1,15⟩ ⟨2026,2,15⟩ = true ∧
    getTotalOverdue (legacyPipelineDebts c9Tenant ⟨2026,3,15⟩ []) ⟨2026,1,15⟩ = 0 ∧
    getTotalOverdue (legacyPipelineDebts c9Tenant ⟨2026,3,15⟩ []) ⟨2026,2,15⟩ = -40000 ∧
    ¬ (getTotalOverdue (legacyPipelineDebts c9Tenant ⟨2026,3,15⟩ []) ⟨2026,1,15⟩ ≤
       getTotalOverdue (legacyPipelineDebts c9Tenant ⟨2026,3,15⟩ []) ⟨2026,2,15⟩) := by
  decide

/-- C9 witness: the DB pipeline's overdue at 2026-01 is at most its overdue
at 2026-02. -/

theorem overdue_monotone_db_witness :
    getTotalOverdue (runTenantDB c9wTenant [] ⟨2026,1,20⟩).1 ⟨2026,1,15⟩ ≤
      getTotalOverdue (runTenantDB c9wTenant [] ⟨2026,1,20⟩).1 ⟨2026,2,15⟩ :=
  overdue_monotone_db c9wTenant [] ⟨2026,1,20⟩ ⟨2026,1,15⟩ ⟨2026,2,15⟩
    (by decide) (by decide)

/-! Claim C10: the DB engine's fixed default baseline date. -/

/-- C10 counterexample: a present, non-sentinel base-date string that
`pd.to_datetime` cannot parse is NOT assigned the default 2026-02-13 — the
parse runs with `errors='raise'`, so the exception propagates and the
tenant record is never constructed. -/
theorem db_default_base_date_counterexample :
    resolveBaseDate (some "garbage") none = Except.error "ValueError" ∧
    resolveBaseDate (some "garbage") none ≠ Except.ok ⟨2026, 2, 13⟩ := by
  decide

/-- C10 (amended): a tenant record whose base-date inputs are absent or
sentinel (`''`/`'none'`/`'nan'`/null, for both `Values.base_date` and
`BaseDebtDate`) is assigned the fixed default baseline 2026-02-13 (a
present non-sentinel string instead goes to `pd.to_datetime` with
`errors='raise'`, yielding its parsed date or an uncaught exception); the
DB engine's `calculate_debts` never reads the free-text delinquency memo
(so such tenants always follow the baseline-anchored strategy); and the
memo-anchored fallback exists only in the legacy engine, whose
`calculate_debts` does depend on the memo. -/
theorem db_default_base_date :
    (∀ v b : Option String, absentOrSentinel v → absentOrSentinel b →
      resolveBaseDate v b = Except.ok ⟨2026, 2, 13⟩) ∧
    (∀ (t : TenantDB) (memo : String) (target : CalDate),
      calculateDebtsDB { t with delinquencyMemo := memo } target =
        calculateDebtsDB t target) ∧
    calculateDebtsLegacy c10LegacyA ⟨2026,3,15⟩ ≠
      calculateDebtsLegacy c10LegacyB ⟨2026,3,15⟩ := by
  refine ⟨?_, ?_, by decide⟩
  · intro v b hv hb
    unfold resolveBaseDate
    cases v with
    | none =>
      cases b with
      | none => decide
      | some sb =>
        have hs := hb sb rfl
        simp only [hs, if_true]
        decide
    | some sv =>
      have hs := hv sv rfl
      simp only [hs, if_true]
      cases b with
      | none => decide
      | some sb =>
        have hs2 := hb sb rfl
        simp only [hs2, if_true]
        decide
  · intro t memo target
    rfl

/-- C10 witness: the sentinel `'nan'` in `Values.base_date` with no
`BaseDebtDate` yields the default 2026-02-13, and a concrete tenant's debts
are unchanged by its memo. -/
theorem db_default_base_date_witness :
    resolveBaseDate (some "nan") none = Except.ok ⟨2026, 2, 13⟩ ∧
    calculateDebtsDB { (⟨60000, ⟨2025,12,16⟩, 24500, 0, 0, false, none, false,
        ""⟩ : TenantDB) with delinquencyMemo := "12月分全額" } ⟨2026,1,15⟩ =
      calculateDebtsDB ⟨60000, ⟨2025,12,16⟩, 24500, 0, 0, false, none, false,
        ""⟩ ⟨2026,1,15⟩ :=
  ⟨db_default_base_date.1 (some "nan") none
      (fun s hs => by injection hs with h; rw [← h]; decide)
      (fun s hs => by cases hs),
   db_default_base_date.2.1 _ "12月分全額" _⟩
